import Mathlib

/-!
# Verification of the `query` SQL builder

This file gives a shallow embedding of the `query` package (an SQL query
builder) and proves/refutes the specified properties about it.  The
repository contains three evolutionary variants of the library, embedded
here in three namespaces:

* `V1` — the oldest engine (`query.go`): a `Query` with dedicated
  `wheres`/`sets` fields and a mutable `bind` counter, whose `Build` method
  has a pointer receiver and numbers placeholders while rendering.
* `V2` — the middle engine (`option.go` and its test file): options append
  polymorphic clauses (`list`, `column`, `table`, `portion`, ...) tagged
  with a `clauseKind`; rendering first produces text with `?` placeholders
  (`buildInitial`) and `Build` then renumbers them to `$n`.  The render
  engine of this variant is not among the given sources; it is modelled
  from the spec (§4.2 and §4.4) with the algorithm of the surviving newer
  engine as a template, and is validated against the variant's own test
  expectations, which are among the sources.
* `V3` — the newest engine (the `Expr`/`Clause` based files): statements
  carry leading expressions and a clause list; `Where` takes expression
  values, `Union` wraps whole statements as clauses.

Go slices of `interface{}` argument values are modelled by the `ArgV` sum
type; strings are Lean `String`s (lists of characters).
-/

/-- A bound argument value (`interface{}` in the Go sources).  Only the
carrier matters for the builder: values are stored and returned, never
inspected. -/
inductive ArgV where
  | vStr (s : String)
  | vInt (n : Int)
  | vBool (b : Bool)
deriving DecidableEq

/-- Number of `?` placeholder characters in a string. -/
def countQ (s : String) : Nat := s.data.count '?'

/-- A string is *clean* when it contains no `?` placeholder character.
User-supplied identifiers are expected to be clean; the engine never checks
this. -/
def cleanS (s : String) : Prop := countQ s = 0

instance (s : String) : Decidable (cleanS s) := by
  unfold cleanS; infer_instance

theorem countQ_append (a b : String) : countQ (a ++ b) = countQ a + countQ b := by
  simp [countQ, String.data_append, List.count_append]

/-- `strings.Join` of the Go standard library: items interleaved with a
separator. -/
def joinSep (sep : String) : List String → String
  | [] => ""
  | [s] => s
  | s :: rest => s ++ sep ++ joinSep sep rest

theorem countQ_joinSep (sep : String) (hsep : countQ sep = 0) :
    ∀ l : List String, countQ (joinSep sep l) = (l.map countQ).sum := by
  intro l
  induction l with
  | nil => simp [joinSep, countQ]
  | cons s rest ih =>
    cases rest with
    | nil => simp [joinSep]
    | cons t r =>
      simp only [joinSep] at ih ⊢
      simp only [countQ_append, hsep, ih, List.map_cons, List.sum_cons]
      omega

/-- The placeholder-substitution pass of `Build` (both in `V2` and `V3`):
scan left-to-right, replacing each `?` in turn with `$1`, `$2`, ....  The Go
code repeatedly takes `strings.Index(s, "?")`, copies the prefix, appends
`'$'` and the decimal parameter number, and continues with the remainder;
this recursion consumes exactly the same characters per iteration. -/
def substChars : List Char → Nat → List Char
  | [], _ => []
  | c :: cs, param =>
    if c = '?' then '$' :: Nat.toDigits 10 (param + 1) ++ substChars cs (param + 1)
    else c :: substChars cs param

/-- Spec-side view of the substitution pass: the segments of the text
between the `?` occurrences, in order.  Splitting on `?` always yields one
more segment than there are `?` characters. -/
def splitQ : List Char → List (List Char)
  | [] => [[]]
  | c :: cs =>
    if c = '?' then [] :: splitQ cs
    else
      match splitQ cs with
      | [] => [[c]]
      | seg :: rest => (c :: seg) :: rest

/-- Spec-side view of the substitution pass: interleave the segments with
`$k` markers numbered `start+1`, `start+2`, ....  Every character outside a
placeholder is kept unchanged. -/
def renumberFrom (start : Nat) : List (List Char) → List Char
  | [] => []
  | [seg] => seg
  | seg :: rest => seg ++ '$' :: Nat.toDigits 10 (start + 1) ++ renumberFrom (start + 1) rest

theorem splitQ_ne_nil (s : List Char) : splitQ s ≠ [] := by
  induction s with
  | nil => simp [splitQ]
  | cons c cs ih =>
    by_cases h : c = '?'
    · simp [splitQ, h]
    · simp only [splitQ, if_neg h]
      cases hs : splitQ cs with
      | nil => simp
      | cons seg rest => simp

/-- The source substitution loop replaces the k-th `?` occurrence (counting
from `start`) with `$k` and copies every other character unchanged. -/
theorem substChars_eq_renumber (s : List Char) :
    ∀ start, substChars s start = renumberFrom start (splitQ s) := by
  induction s with
  | nil => intro start; simp [substChars, splitQ, renumberFrom]
  | cons c cs ih =>
    intro start
    by_cases h : c = '?'
    · subst h
      simp only [substChars, if_pos rfl, splitQ]
      have hne := splitQ_ne_nil cs
      cases hs : splitQ cs with
      | nil => exact absurd hs hne
      | cons seg rest =>
        simp [renumberFrom, ih, hs]
    · simp only [substChars, if_neg h, splitQ]
      cases hs : splitQ cs with
      | nil => exact absurd hs (splitQ_ne_nil cs)
      | cons seg rest =>
        cases rest with
        | nil => simp [renumberFrom, ih, hs]
        | cons seg2 rest2 => simp [renumberFrom, ih, hs]

/-- Number of segments produced by `splitQ` is one more than the number of
`?` characters: substitution emits exactly one `$k` marker per `?`. -/
theorem splitQ_length (s : List Char) : (splitQ s).length = s.count '?' + 1 := by
  induction s with
  | nil => simp [splitQ]
  | cons c cs ih =>
    by_cases h : c = '?'
    · subst h; simp [splitQ, ih, List.count_cons]
    · simp only [splitQ, if_neg h]
      cases hs : splitQ cs with
      | nil => exact absurd hs (splitQ_ne_nil cs)
      | cons seg rest =>
        have := ih
        rw [hs] at this
        simp_all [List.count_cons, h]

/-!
## V2 — the `option.go` variant

The options of `option.go` append clause values to `Query.clauses` and bound
arguments to `Query.args`.  The clause value types (`list`, `column`,
`table`, `portion`, `order`, `alias`, `count`) and the statement/clause kind
enumerations are reconstructed from their uses in `option.go`; the render
engine (`buildInitial`/`Build`) is missing from the sources and is modelled
from the spec (§4.2 keyword table, §4.4 render algorithm), following the
surviving newer engine's loop structure, and is checked below against the
expected strings of this variant's own test file.
-/

namespace V2

/-- Statement kinds (`selectStmt`, `insertStmt`, `updateStmt`, `deleteStmt`
in `option.go`; the zero value is `noneStmt`). -/
inductive Stmt where
  | noneStmt | selectStmt | insertStmt | updateStmt | deleteStmt
deriving DecidableEq

/-- Modelled from the spec: the statement keyword written first by the
render engine. -/
def stmtStr : Stmt → String
  | .noneStmt => ""
  | .selectStmt => "SELECT"
  | .insertStmt => "INSERT"
  | .updateStmt => "UPDATE"
  | .deleteStmt => "DELETE"

/-- Clause kinds used by `option.go` (`noneKind`, `columnsKind`, `fromKind`,
`intoKind`, `whereKind`, `valuesKind`, `setKind`, `returningKind`,
`limitKind`, `offsetKind`, plus kinds for the order/alias clauses). -/
inductive Kind where
  | noneKind | columnsKind | fromKind | intoKind | whereKind | valuesKind
  | setKind | returningKind | limitKind | offsetKind | orderKind | asKind
deriving DecidableEq

/-- Modelled from the spec (§4.2): the fixed kind → keyword table.  The
column-list position after the statement keyword and the anonymous table
position have no keyword. -/
def kindStr : Kind → String
  | .noneKind => ""
  | .columnsKind => ""
  | .fromKind => "FROM"
  | .intoKind => "INTO"
  | .whereKind => "WHERE"
  | .valuesKind => "VALUES"
  | .setKind => "SET"
  | .returningKind => "RETURNING"
  | .limitKind => "LIMIT"
  | .offsetKind => "OFFSET"
  | .orderKind => "ORDER BY"
  | .asKind => "AS"

/-- The clause values appended by the options of `option.go`:
`list{clauseKind, items}`, `column{col, op, val, conjunction, clauseKind}`,
`table{clauseKind, item}`, `portion{clauseKind, n}`, `order{col, dir}`,
`alias{name}` and `count{expr}`. -/
inductive Clause where
  | list (kind : Kind) (items : List String)
  | column (col op val conjunction : String) (kind : Kind)
  | table (kind : Kind) (item : String)
  | portion (kind : Kind) (n : Int)
  | order (col dir : String)
  | alias (name : String)
  | count (expr : String)
deriving DecidableEq

/-- The kind tag of a clause (`order`/`alias`/`count` carry a fixed kind;
modelled from the spec's clause taxonomy §3). -/
def Clause.kind : Clause → Kind
  | .list k _ => k
  | .column _ _ _ _ k => k
  | .table k _ => k
  | .portion k _ => k
  | .order _ _ => .orderKind
  | .alias _ => .asKind
  | .count _ => .noneKind

/-- The text a clause renders to.  A value list is parenthesized, a plain
column list is not (spec §4.1); a `column` clause renders
`col op val`; a `portion` renders its integer in decimal
(`strconv.FormatInt`). -/
def Clause.build : Clause → String
  | .list k items => if k = .valuesKind then "(" ++ joinSep ", " items ++ ")" else joinSep ", " items
  | .column col op val _ _ => col ++ " " ++ op ++ " " ++ val
  | .table _ item => item
  | .portion _ n => toString n
  | .order col dir => col ++ " " ++ dir
  | .alias name => name
  | .count expr => "COUNT(" ++ expr ++ ")"

/-- The separator used to conjoin a clause with a preceding same-kind
clause: WHERE predicates use their stored conjunction padded with spaces,
SET predicates and VALUES groups are comma-joined, everything else is
space-joined (spec §3/§4.4; the newer engine's `conj` follows the same
table). -/
def Clause.conj : Clause → String
  | .column _ _ _ cj k =>
    if k = .whereKind then " " ++ cj ++ " "
    else if k = .setKind then cj ++ " "
    else " "
  | .list k _ => if k = .valuesKind then ", " else " "
  | _ => " "

/-- The state of a query being built (`Query` of this variant): statement
kind, ordered clause list, ordered argument list. -/
structure Query where
  stmt : Stmt := .noneStmt
  clauses : List Clause := []
  args : List ArgV := []
deriving DecidableEq

/-- Args returns the arguments accumulated in the query. -/
def Args (q : Query) : List ArgV := q.args

/-- Modelled from the spec (§4.4 steps 2–3), following the surviving newer
engine's loop: walk the clause list once; emit a kind's keyword only on its
first occurrence (opening a parenthesis for WHERE); between two clauses of
the same kind emit the next clause's separator, closing and reopening the
WHERE parenthesis when the conjunction switches between consecutive
same-kind clauses; between different kinds close the WHERE parenthesis and
emit a space; close the WHERE parenthesis after a final WHERE clause.
Besides the rendered text this returns the list of kinds whose keyword was
emitted, in emission order. -/
def kwFor (kind : Kind) : String :=
  (if kindStr kind = "" then "" else kindStr kind ++ " ") ++
    (if kind = .whereKind then "(" else "")

/-- Whether the parenthesis-toggle fires: the previous clause shares the
current kind and the next clause's conjunction differs from the current
one's. -/
def wrapFor (cl : Clause) (prev : Option Clause) (next : Clause) : Bool :=
  match prev with
  | some p => if p.kind = cl.kind ∧ next.conj ≠ cl.conj then true else false
  | none => false

/-- What is written after a clause's own text: between same-kind clauses the
next clause's separator (with the parenthesis toggle on a conjunction
switch); at a kind boundary the WHERE closing parenthesis and a space; at
the end the WHERE closing parenthesis. -/
def sepFor (cl : Clause) (prev : Option Clause) : Option Clause → String
  | some next =>
    if next.kind = cl.kind then
      (if wrapFor cl prev next then ")" else "") ++ next.conj ++
        (if wrapFor cl prev next then "(" else "")
    else (if cl.kind = .whereKind then ")" else "") ++ " "
  | none => if cl.kind = .whereKind then ")" else ""

def buildClauses : List Clause → Option Clause → List Kind → String × List Kind
  | [], _, _ => ("", [])
  | cl :: rest, prev, seen =>
    let isNew : Bool := if cl.kind ∈ seen then false else true
    let kw := if isNew then kwFor cl.kind else ""
    let seen' := if isNew then cl.kind :: seen else seen
    let restOut := buildClauses rest (some cl) seen'
    (kw ++ cl.build ++ sepFor cl prev rest.head? ++ restOut.1,
     (if isNew then [cl.kind] else []) ++ restOut.2)

/-- Modelled from the spec (§4.4 step 1): the initial render with `?`
placeholders — the statement keyword followed by the clause walk. -/
def buildInitial (q : Query) : String :=
  stmtStr q.stmt ++ " " ++ (buildClauses q.clauses none []).1

/-- Build renders the query: the initial `?`-placeholder text followed by
the substitution pass that renumbers `?` to `$n` (the same
`strings.Index`-driven loop as the newer engine's `Build`). -/
def Build (q : Query) : String :=
  String.mk (substChars (buildInitial q).data 0)

/-- `expand` of `option.go`: one `?` placeholder per value, parenthesized
and comma-joined. -/
def expand (vals : List ArgV) : String :=
  "(" ++ joinSep ", " (vals.map fun _ => "?") ++ ")"

/-- `realWhere` of `option.go`: append a WHERE-kind `column` clause with the
given conjunction. -/
def realWhere (conjunction col op : String) (val : String) (q : Query) : Query :=
  { q with clauses := q.clauses ++ [.column col op val conjunction .whereKind] }

/-- `realOrder` of `option.go`. -/
def realOrder (col dir : String) (q : Query) : Query :=
  { q with clauses := q.clauses ++ [.order col dir] }

/-- `realPortion` of `option.go`. -/
def realPortion (kind : Kind) (n : Int) (q : Query) : Query :=
  { q with clauses := q.clauses ++ [.portion kind n] }

/-- `As` of `option.go`. -/
def As (name : String) (q : Query) : Query :=
  { q with clauses := q.clauses ++ [.alias name] }

/-- The in-place mutation `Columns` performs on its captured column slice
for INSERT statements: `cols[0] = "(" + cols[0]` followed by
`cols[end] = cols[end] + ")"` (for a single column both hit the same
element). -/
def mutFirst : List String → List String
  | [] => []
  | c :: r => ("(" ++ c) :: r

def mutLast : List String → List String
  | [] => []
  | [c] => [c ++ ")"]
  | c :: r => c :: mutLast r

def mutCols (cols : List String) : List String := mutLast (mutFirst cols)

/-- `Columns` of `option.go` applied once, to a freshly captured (not yet
mutated) column slice: for INSERT statements the slice contents are those
after the in-place mutation.  Because Go's `list{items: cols}` stores the
slice header itself, reapplying one option value also rewrites the items of
clauses appended earlier; that aliasing is modelled by `ColumnsRef` below,
where the appended clause holds the slice's address. -/
def Columns (cols : List String) (q : Query) : Query :=
  let cols' := if q.stmt = .insertStmt then mutCols cols else cols
  { q with clauses := q.clauses ++ [.list .columnsKind cols'] }

/-- The backing arrays of the column slices captured by `Columns` closures,
one address per slice. -/
abbrev SliceHeap := List (List String)

/-- A clause that is an ordinary clause value, or a column-list clause
holding the address of its shared item slice (Go's `list{items: cols}`
keeps the slice header, so the items are read through the heap at render
time). -/
inductive HClause where
  | plain (cl : Clause)
  | colsRef (addr : Nat)

/-- A query whose column-list clauses reference shared slices. -/
structure HQuery where
  stmt : Stmt := .noneStmt
  clauses : List HClause := []
  args : List ArgV := []

/-- Read one clause back, resolving a column-list reference through the
heap. -/
def resolveClause (h : SliceHeap) : HClause → Clause
  | .plain cl => cl
  | .colsRef a => .list .columnsKind (h.getD a [])

/-- The plain query a heap query denotes: every clause read through the
heap. -/
def resolveQuery (h : SliceHeap) (q : HQuery) : Query :=
  { stmt := q.stmt, clauses := q.clauses.map (resolveClause h), args := q.args }

/-- `Columns` of `option.go` with the captured slice shared by reference:
the closure holds the address of its slice; on an INSERT statement the
slice at that address is mutated in place (`(` prepended to the first
element, `)` appended to the last), and the appended clause stores the same
address — so the mutation is visible through every clause that already
references this slice. -/
def ColumnsRef (addr : Nat) (h : SliceHeap) (q : HQuery) : SliceHeap × HQuery :=
  let h' := if q.stmt = .insertStmt then h.set addr (mutCols (h.getD addr [])) else h
  (h', { q with clauses := q.clauses ++ [.colsRef addr] })

/-- `Count` of `option.go`. -/
def Count (expr : String) (q : Query) : Query :=
  { q with clauses := q.clauses ++ [.count expr] }

/-- `From` of `option.go`: appends a FROM table clause only on SELECT and
DELETE statements. -/
def From (item : String) (q : Query) : Query :=
  if q.stmt = .selectStmt ∨ q.stmt = .deleteStmt then
    { q with clauses := q.clauses ++ [.table .fromKind item] }
  else q

/-- `Into` of `option.go`: appends an INTO table clause only on INSERT
statements. -/
def Into (item : String) (q : Query) : Query :=
  if q.stmt = .insertStmt then
    { q with clauses := q.clauses ++ [.table .intoKind item] }
  else q

/-- `Limit` of `option.go`. -/
def Limit (n : Int) (q : Query) : Query := realPortion .limitKind n q

/-- `Offset` of `option.go`. -/
def Offset (n : Int) (q : Query) : Query := realPortion .offsetKind n q

/-- `Options` of `option.go`: left-to-right application of a list of
options. -/
def Options (opts : List (Query → Query)) (q : Query) : Query :=
  opts.foldl (fun q o => o q) q

/-- `OrderAsc` of `option.go`. -/
def OrderAsc (col : String) (q : Query) : Query := realOrder col "ASC" q

/-- `OrderDesc` of `option.go`. -/
def OrderDesc (col : String) (q : Query) : Query := realOrder col "DESC" q

/-- `OrWhere` of `option.go`: no-op on an empty value list; appends all
values as arguments; the rendered value is a single `?` placeholder, or a
parenthesized placeholder list when more than one value is given (note:
unlike `Where` there is no `op == "IN"` test here). -/
def OrWhere (col op : String) (vals : List ArgV) (q : Query) : Query :=
  if vals = [] then q
  else
    let val := if 1 < vals.length then expand vals else "?"
    realWhere "OR" col op val { q with args := q.args ++ vals }

/-- `OrWhereQuery` of `option.go`: embeds the sub-query's non-numbered
render, parenthesized, as the value, and imports its arguments. -/
def OrWhereQuery (col op : String) (q2 : Query) (q1 : Query) : Query :=
  realWhere "OR" col op ("(" ++ buildInitial q2 ++ ")") { q1 with args := q1.args ++ q2.args }

/-- `OrWhereRaw` of `option.go`: the formatted values are embedded as
literal text (no placeholders, no arguments); several values are
parenthesized and comma-joined.  The `fmt.Sprintf("%v", ...)` formatting of
the raw values is modelled by taking them as strings. -/
def OrWhereRaw (col op : String) (vals : List String) (q : Query) : Query :=
  if vals = [] then q
  else
    let val := if 1 < vals.length then "(" ++ joinSep ", " vals ++ ")" else vals.headI
    realWhere "OR" col op val q

/-- `Returning` of `option.go`: only on INSERT, UPDATE and DELETE
statements. -/
def Returning (cols : List String) (q : Query) : Query :=
  if q.stmt = .insertStmt ∨ q.stmt = .updateStmt ∨ q.stmt = .deleteStmt then
    { q with clauses := q.clauses ++ [.list .returningKind cols] }
  else q

/-- `SetRaw` of `option.go`: appends a comma-conjoined SET `column` clause,
only on UPDATE statements. -/
def SetRaw (col : String) (val : String) (q : Query) : Query :=
  if q.stmt = .updateStmt then
    { q with clauses := q.clauses ++ [.column col "=" val "," .setKind] }
  else q

/-- `Set` of `option.go`: appends the value as an argument (always — even
when the following `SetRaw` drops the clause on non-UPDATE statements) and
then a `?`-valued SET clause via `SetRaw`. -/
def Set (col : String) (val : ArgV) (q : Query) : Query :=
  SetRaw col "?" { q with args := q.args ++ [val] }

/-- `Table` of `option.go`: appends an anonymous (no-keyword) table clause,
only on UPDATE statements. -/
def Table (item : String) (q : Query) : Query :=
  if q.stmt = .updateStmt then
    { q with clauses := q.clauses ++ [.table .noneKind item] }
  else q

/-- `Values` of `option.go`: only on INSERT statements, appends a VALUES
list with one `?` item per value and all values as arguments. -/
def Values (vals : List ArgV) (q : Query) : Query :=
  if q.stmt = .insertStmt then
    { q with
      clauses := q.clauses ++ [.list .valuesKind (vals.map fun _ => "?")],
      args := q.args ++ vals }
  else q

/-- `Where` of `option.go`: no-op on an empty value list; appends all values
as arguments; the rendered value is a parenthesized placeholder list when
more than one value is given or the operator is `IN`, else a single `?`. -/
def Where (col op : String) (vals : List ArgV) (q : Query) : Query :=
  if vals = [] then q
  else
    let val := if 1 < vals.length ∨ op = "IN" then expand vals else "?"
    realWhere "AND" col op val { q with args := q.args ++ vals }

/-- `WhereRaw` of `option.go` (values modelled as their `%v` formatting,
like `OrWhereRaw`). -/
def WhereRaw (col op : String) (vals : List String) (q : Query) : Query :=
  if vals = [] then q
  else
    let val :=
      if 1 < vals.length ∨ op = "IN" then "(" ++ joinSep ", " vals ++ ")"
      else vals.headI
    realWhere "AND" col op val q

/-- `WhereQuery` of `option.go`: embeds the sub-query's non-numbered render,
parenthesized, as the value, and imports its arguments. -/
def WhereQuery (col op : String) (q2 : Query) (q1 : Query) : Query :=
  realWhere "AND" col op ("(" ++ buildInitial q2 ++ ")") { q1 with args := q1.args ++ q2.args }

/-- A fresh statement of the given kind — the state the `Select`, `Insert`,
`Update` and `Delete` constructors of this variant pass to their options. -/
def init (s : Stmt) : Query := { stmt := s }

/-- `Select` of this variant (per its test file, constructors take only
options). -/
def Select (opts : List (Query → Query)) : Query := Options opts (init .selectStmt)

/-- `Insert` of this variant. -/
def Insert (opts : List (Query → Query)) : Query := Options opts (init .insertStmt)

/-- `Update` of this variant. -/
def Update (opts : List (Query → Query)) : Query := Options opts (init .updateStmt)

/-- `Delete` of this variant. -/
def Delete (opts : List (Query → Query)) : Query := Options opts (init .deleteStmt)

end V2

/-!
## V3 — the `Expr`/`Clause` based variant

This embeds the newest engine: the `Query`/`buildInitial`/`Build`/`Args`/
`Union` file and the clause/option file (`Where`, `OrWhere`, `From`,
`Limit`, `Offset`, `OrderAsc`, `OrderDesc`, `Returning`, `Set`, `Values`
and the clause value types).  The expression primitives (`Ident`, `Lit`,
`Arg`, `List`, the column list) are in a source file that is not among the
given ones and are modelled from the spec (§4.1).

Two lazily rendered references to whole sub-queries appear in the sources:
`unionClause` stores a `Query` and renders `q.buildInitial()` when built,
and `realWhere` type-switches on a right operand that may be a `Query`,
immediately replacing it by `Lit("(" + q.buildInitial() + ")")`.  Rendering
is pure, so both renders are evaluated here at clause-construction time
(the produced text is identical); the `Query`-or-expression operand of
`realWhere` is modelled by a sum type.
-/

namespace V3

/-- `statement` of this variant: `_Stmt` (zero, empty keyword), `_Delete`,
`_Insert`, `_Select`, `_Update` with their stringer line comments. -/
inductive Stmt where
  | stmtNone | stmtDelete | stmtInsert | stmtSelect | stmtUpdate
deriving DecidableEq

/-- The stringer-generated `statement.String()` (from the line comments). -/
def stmtStr : Stmt → String
  | .stmtNone => ""
  | .stmtDelete => "DELETE"
  | .stmtInsert => "INSERT"
  | .stmtSelect => "SELECT"
  | .stmtUpdate => "UPDATE"

/-- `clauseKind` with its stringer line comments. -/
inductive Kind where
  | fromClause | limitClause | offsetClause | orderClause | unionClause
  | valuesClause | whereClause | returningClause | setClause
deriving DecidableEq

/-- The stringer-generated `clauseKind.String()`. -/
def kindStr : Kind → String
  | .fromClause => "FROM"
  | .limitClause => "LIMIT"
  | .offsetClause => "OFFSET"
  | .orderClause => "ORDER BY"
  | .unionClause => "UNION"
  | .valuesClause => "VALUES"
  | .whereClause => "WHERE"
  | .returningClause => "RETURNING"
  | .setClause => "SET"

/-- Modelled from the spec (§4.1): the expression primitives.  `ident`
renders verbatim with no arguments; `lit` renders its formatted value
verbatim with no arguments; `arg` renders a single `?` and contributes one
argument; `listE` renders a parenthesized placeholder list, one `?` and one
argument per value; `colsE` is the unparenthesized column list used as a
leading SELECT expression. -/
inductive Expr where
  | ident (s : String)
  | lit (s : String)
  | arg (v : ArgV)
  | listE (vs : List ArgV)
  | colsE (cols : List String)
deriving DecidableEq

/-- `Expr.Build` of the modelled primitives. -/
def Expr.build : Expr → String
  | .ident s => s
  | .lit s => s
  | .arg _ => "?"
  | .listE vs => "(" ++ joinSep ", " (vs.map fun _ => "?") ++ ")"
  | .colsE cols => joinSep ", " cols

/-- `Expr.Args` of the modelled primitives. -/
def Expr.args : Expr → List ArgV
  | .ident _ => []
  | .lit _ => []
  | .arg v => [v]
  | .listE vs => vs
  | .colsE _ => []

/-- The clause values of this variant: `fromClause{table}`,
`limitClause(n)`, `offsetClause(n)`, `orderClause{cols, dir}`,
`returningClause{cols}`, `setClause{col, expr}`, `unionClause{q}` (its
lazily rendered `q.buildInitial()` stored here eagerly), `valuesClause
{items, args}` and `whereClause{conjunction, op, left, right}`. -/
inductive Clause where
  | fromC (table : String)
  | limitC (n : Int)
  | offsetC (n : Int)
  | orderC (cols : List String) (dir : String)
  | returningC (cols : List String)
  | setC (col : String) (expr : Expr)
  | unionC (text : String)
  | valuesC (items : List String) (args : List ArgV)
  | whereC (conjunction op : String) (left right : Expr)
deriving DecidableEq

/-- `clause.kind()` of each clause type. -/
def Clause.kind : Clause → Kind
  | .fromC _ => .fromClause
  | .limitC _ => .limitClause
  | .offsetC _ => .offsetClause
  | .orderC _ _ => .orderClause
  | .returningC _ => .returningClause
  | .setC _ _ => .setClause
  | .unionC _ => .unionClause
  | .valuesC _ _ => .valuesClause
  | .whereC _ _ _ _ => .whereClause

/-- The `Build` method of each clause type. -/
def Clause.build : Clause → String
  | .fromC table => table
  | .limitC n => toString n
  | .offsetC n => toString n
  | .orderC cols dir => joinSep ", " cols ++ " " ++ dir
  | .returningC cols => joinSep ", " cols
  | .setC col e => col ++ " = " ++ e.build
  | .unionC text => text
  | .valuesC items _ => "(" ++ joinSep ", " items ++ ")"
  | .whereC _ op l r => l.build ++ " " ++ op ++ " " ++ r.build

/-- `Query.conj`: the string conjoining two clauses of the same kind — the
stored conjunction for WHERE clauses, `" UNION "` for union members, a
comma for SET and VALUES, a space otherwise. -/
def Clause.conj : Clause → String
  | .whereC cj _ _ _ => " " ++ cj ++ " "
  | .unionC _ => " " ++ kindStr .unionClause ++ " "
  | .setC _ _ => ", "
  | .valuesC _ _ => ", "
  | _ => " "

/-- `Query` of this variant. -/
structure Query where
  stmt : Stmt := .stmtNone
  table : String := ""
  exprs : List Expr := []
  clauses : List Clause := []
  args : List ArgV := []
deriving DecidableEq

/-- `Args` of this variant. -/
def Args (q : Query) : List ArgV := q.args

/-- The clause walk of `buildInitial` (the `for i, cl := range q.clauses`
loop): emit a kind's keyword only on its first occurrence and never for
UNION (opening a parenthesis for WHERE); between same-kind clauses emit the
next clause's conjunction, wrapped by a close/reopen parenthesis pair when
the conjunction switches between consecutive same-kind clauses; between
different kinds close the WHERE parenthesis and emit a space; close the
WHERE parenthesis after a final WHERE clause.  The second component is the
list of kinds whose keyword was written, in order. -/
def kwFor (kind : Kind) : String :=
  kindStr kind ++ " " ++ (if kind = .whereClause then "(" else "")

/-- Whether the parenthesis-toggle fires (as in `V2.wrapFor`). -/
def wrapFor (cl : Clause) (prev : Option Clause) (next : Clause) : Bool :=
  match prev with
  | some p => if p.kind = cl.kind ∧ next.conj ≠ cl.conj then true else false
  | none => false

/-- What is written after a clause's own text (as in `V2.sepFor`). -/
def sepFor (cl : Clause) (prev : Option Clause) : Option Clause → String
  | some next =>
    if next.kind = cl.kind then
      (if wrapFor cl prev next then ")" else "") ++ next.conj ++
        (if wrapFor cl prev next then "(" else "")
    else (if cl.kind = .whereClause then ")" else "") ++ " "
  | none => if cl.kind = .whereClause then ")" else ""

def buildClauses : List Clause → Option Clause → List Kind → String × List Kind
  | [], _, _ => ("", [])
  | cl :: rest, prev, seen =>
    let isNew : Bool := if cl.kind ≠ .unionClause ∧ cl.kind ∉ seen then true else false
    let kw := if isNew then kwFor cl.kind else ""
    let seen' := if isNew then cl.kind :: seen else seen
    let restOut := buildClauses rest (some cl) seen'
    (kw ++ cl.build ++ sepFor cl prev rest.head? ++ restOut.1,
     (if isNew then [cl.kind] else []) ++ restOut.2)

/-- `buildInitial` of this variant: the statement keyword, the table in the
position the statement kind dictates, each leading expression wrapped in
spaces (and parentheses for INSERT), then the clause walk. -/
def buildInitial (q : Query) : String :=
  let start :=
    stmtStr q.stmt ++
      (match q.stmt with
       | .stmtInsert => " INTO " ++ q.table
       | .stmtUpdate => " " ++ q.table ++ " "
       | .stmtDelete => " FROM " ++ q.table ++ " "
       | _ => "")
  let exprsPart :=
    (q.exprs.map fun e =>
      " " ++ (if q.stmt = .stmtInsert then "(" else "") ++ e.build ++
        (if q.stmt = .stmtInsert then ")" else "") ++ " ").foldr (· ++ ·) ""
  start ++ exprsPart ++ (buildClauses q.clauses none []).1

/-- The kinds whose keyword `buildInitial` writes, in emission order. -/
def emittedKinds (q : Query) : List Kind := (buildClauses q.clauses none []).2

/-- `Build` of this variant: the `?`-placeholder render followed by the
`strings.Index`-driven substitution to `$n`. -/
def Build (q : Query) : String :=
  String.mk (substChars (buildInitial q).data 0)

/-- The right operand of `realWhere` may be a plain expression or a whole
`Query` (the Go type switch `right.(Query)`). -/
def QExpr := Expr ⊕ Query

/-- `realWhere` of this variant: collect the operands' arguments
(left-to-right), replace a `Query` right operand by the literal
parenthesized non-numbered render, and append the WHERE clause and the
arguments. -/
def realWhere (conjunction : String) (left : Expr) (op : String) (right : QExpr)
    (q : Query) : Query :=
  let rightArgs := match right with | .inl e => e.args | .inr q2 => Args q2
  let newArgs := left.args ++ rightArgs
  let right' := match right with
    | .inl e => e
    | .inr q2 => Expr.lit ("(" ++ buildInitial q2 ++ ")")
  { q with
    clauses := q.clauses ++ [.whereC conjunction op left right'],
    args := q.args ++ newArgs }

/-- `Where` of this variant: an AND-conjoined WHERE clause on an identifier
column. -/
def Where (col op : String) (e : QExpr) (q : Query) : Query :=
  realWhere "AND" (.ident col) op e q

/-- `OrWhere` of this variant. -/
def OrWhere (col op : String) (e : QExpr) (q : Query) : Query :=
  realWhere "OR" (.ident col) op e q

/-- `From` of this variant: appends a FROM clause unconditionally. -/
def From (table : String) (q : Query) : Query :=
  { q with clauses := q.clauses ++ [.fromC table] }

/-- `Limit` of this variant. -/
def Limit (n : Int) (q : Query) : Query :=
  { q with clauses := q.clauses ++ [.limitC n] }

/-- `Offset` of this variant. -/
def Offset (n : Int) (q : Query) : Query :=
  { q with clauses := q.clauses ++ [.offsetC n] }

/-- `OrderAsc` of this variant. -/
def OrderAsc (cols : List String) (q : Query) : Query :=
  { q with clauses := q.clauses ++ [.orderC cols "ASC"] }

/-- `OrderDesc` of this variant. -/
def OrderDesc (cols : List String) (q : Query) : Query :=
  { q with clauses := q.clauses ++ [.orderC cols "DESC"] }

/-- `Returning` of this variant. -/
def Returning (cols : List String) (q : Query) : Query :=
  { q with clauses := q.clauses ++ [.returningC cols] }

/-- `Set` of this variant: only on UPDATE statements; stores the
expression's rendered text as a literal and appends its arguments. -/
def Set (col : String) (e : Expr) (q : Query) : Query :=
  if q.stmt = .stmtUpdate then
    { q with
      clauses := q.clauses ++ [.setC col (.lit e.build)],
      args := q.args ++ e.args }
  else q

/-- `Values` of this variant: one `?` item per value; appends the values as
arguments. -/
def Values (vals : List ArgV) (q : Query) : Query :=
  { q with
    clauses := q.clauses ++ [.valuesC (vals.map fun _ => "?") vals],
    args := q.args ++ vals }

/-- `Select` of this variant. -/
def Select (e : Expr) (opts : List (Query → Query)) : Query :=
  opts.foldl (fun q o => o q) { stmt := .stmtSelect, exprs := [e] }

/-- `Insert` of this variant. -/
def Insert (table : String) (e : Expr) (opts : List (Query → Query)) : Query :=
  opts.foldl (fun q o => o q) { stmt := .stmtInsert, table := table, exprs := [e] }

/-- `Update` of this variant. -/
def Update (table : String) (opts : List (Query → Query)) : Query :=
  opts.foldl (fun q o => o q) { stmt := .stmtUpdate, table := table }

/-- `Delete` of this variant. -/
def Delete (table : String) (opts : List (Query → Query)) : Query :=
  opts.foldl (fun q o => o q) { stmt := .stmtDelete, table := table }

/-- `Union` of this variant: a fresh query whose arguments are the members'
arguments concatenated and whose clauses wrap the members (the member's
lazily rendered `buildInitial` stored eagerly). -/
def Union (queries : List Query) : Query :=
  { stmt := .stmtNone,
    table := "",
    exprs := [],
    clauses := queries.map fun q => .unionC (buildInitial q),
    args := (queries.map fun q => q.args).foldr (· ++ ·) [] }

end V3

/-!
## V1 — the oldest variant (`query.go`)

`Build` has a pointer receiver here: it mutates the statement's `bind`
counter while numbering placeholders.  The embedding makes the mutation
explicit: `Build` returns the rendered text together with the post-call
statement value.  A `where` row may carry a whole sub-query (rendered, with
its `bind` offset, inside `buildWheres`), so the query/where types are
mutually nested; the render functions take the sub-query renderer as an
argument so that recursion is driven by an explicit depth (`fuel`)
parameter, sufficient whenever it exceeds the sub-query nesting depth.
-/

namespace V1

/-- `param` of this variant. -/
def param (i : Nat) : String := "$" ++ toString i

/-- `direction`. -/
inductive Dir where
  | asc | desc
deriving DecidableEq

/-- `direction.String()`. -/
def dirStr : Dir → String
  | .asc => "ASC"
  | .desc => "DESC"

/-- `statement` of this variant (the zero value precedes the four real
kinds). -/
inductive Stmt where
  | stmtZero | stmtSelect | stmtInsert | stmtUpdate | stmtDelete
deriving DecidableEq

/-- `order`. -/
structure Order where
  cols : List String := []
  dir : Dir := .asc
deriving DecidableEq

/-- `order.isZero()`. -/
def Order.isZero (o : Order) : Prop := o.cols = [] ∧ o.dir = .asc

instance (o : Order) : Decidable o.isZero := by
  unfold Order.isZero; infer_instance

/-- `set` rows (`val` is `nil` for parameter-bound sets, a literal string
for `SetRaw`). -/
structure SetRow where
  col : String
  val : Option String
deriving DecidableEq

mutual
inductive Query where
  | mk (stmt : Stmt) (table : String) (cols : List String) (wheres : List WhereRow)
      (sets : List SetRow) (order : Order) (limit : Int) (offset : Int)
      (ret : List String) (args : List ArgV) (bind : Nat)
inductive WhereRow where
  | mk (col op : String) (val : Option String) (cat : String) (query : Query)
end

def Query.stmt : Query → Stmt | .mk s _ _ _ _ _ _ _ _ _ _ => s
def Query.table : Query → String | .mk _ t _ _ _ _ _ _ _ _ _ => t
def Query.cols : Query → List String | .mk _ _ c _ _ _ _ _ _ _ _ => c
def Query.wheres : Query → List WhereRow | .mk _ _ _ w _ _ _ _ _ _ _ => w
def Query.sets : Query → List SetRow | .mk _ _ _ _ s _ _ _ _ _ _ => s
def Query.order : Query → Order | .mk _ _ _ _ _ o _ _ _ _ _ => o
def Query.limit : Query → Int | .mk _ _ _ _ _ _ l _ _ _ _ => l
def Query.offset : Query → Int | .mk _ _ _ _ _ _ _ o _ _ _ => o
def Query.ret : Query → List String | .mk _ _ _ _ _ _ _ _ r _ _ => r
def Query.args : Query → List ArgV | .mk _ _ _ _ _ _ _ _ _ a _ => a
def Query.bind : Query → Nat | .mk _ _ _ _ _ _ _ _ _ _ b => b

def Query.withBind : Query → Nat → Query
  | .mk s t c w se o l of r a _, b => .mk s t c w se o l of r a b

def WhereRow.col : WhereRow → String | .mk c _ _ _ _ => c
def WhereRow.op : WhereRow → String | .mk _ o _ _ _ => o
def WhereRow.val : WhereRow → Option String | .mk _ _ v _ _ => v
def WhereRow.cat : WhereRow → String | .mk _ _ _ c _ => c
def WhereRow.query : WhereRow → Query | .mk _ _ _ _ q => q

/-- The all-zero `Query` value (a `where` row's `query` field defaults to
it). -/
def zeroQ : Query := .mk .stmtZero "" [] [] [] {} 0 0 [] [] 0

/-- `Query.isZero()` (as in the source: `bind` is not inspected). -/
def Query.isZero (q : Query) : Prop :=
  q.stmt = .stmtZero ∧ q.table = "" ∧ q.cols = [] ∧ q.wheres.length = 0 ∧
    q.sets = [] ∧ q.order.isZero ∧ q.limit = 0 ∧ q.offset = 0 ∧
    q.ret = [] ∧ q.args = []

instance (q : Query) : Decidable q.isZero := by
  unfold Query.isZero; infer_instance

/-- One `where` row's rendered fragment and the bind counter after it
(the body of the `for i, w := range q.wheres` loop up to `Fprintf`): a
stored `val` renders as is; a non-zero sub-query has the outer bind added
to its own, is rendered by `sub` (the recursive `Build`), parenthesized,
and passes its final bind back; `IN` emits `$bind+1 ... $len(args)`
parameters (the source loop `for q.bind != len(q.args)` terminates only
when `bind <= len(args)`, the reachable case modelled here); otherwise one
fresh `$bind+1` parameter is taken.  `sub` is the
depth-limited recursive renderer passed in by `Build`. -/
def whereFrag (sub : Query → String × Nat) (argsLen : Nat) (w : WhereRow)
    (bind : Nat) : String × Nat :=
  let base := w.col ++ " " ++ w.op ++ " "
  match w.val with
  | some v => (base ++ v, bind)
  | none =>
    if ¬ w.query.isZero then
      let (t, b') := sub (w.query.withBind (w.query.bind + bind))
      (base ++ "(" ++ t ++ ")", b')
    else if w.op = "IN" then
      let ks := (List.range (argsLen - bind)).map fun i => param (bind + i + 1)
      (base ++ "(" ++ joinSep ", " ks ++ ")", bind + (argsLen - bind))
    else
      (base ++ param (bind + 1), bind + 1)

/-- The grouping loop of `buildWheres`: fragments accumulate in `acc`; when
the conjunction category changes between consecutive rows the accumulated
group is flushed parenthesized, joined by the current row's category,
followed by the next row's category; the final group is flushed without
parentheses. -/
def wheresLoop (sub : Query → String × Nat) (argsLen : Nat) :
    List WhereRow → List String → Nat → String × Nat
  | [], _, bind => ("", bind)
  | [w], acc, bind =>
    let (s, b') := whereFrag sub argsLen w bind
    (joinSep w.cat (acc ++ [s]), b')
  | w :: next :: rest, acc, bind =>
    let (s, b') := whereFrag sub argsLen w bind
    if next.cat ≠ w.cat then
      let flush := "(" ++ joinSep w.cat (acc ++ [s]) ++ ")" ++ next.cat
      let (restS, b'') := wheresLoop sub argsLen (next :: rest) [] b'
      (flush ++ restS, b'')
    else
      let (restS, b'') := wheresLoop sub argsLen (next :: rest) (acc ++ [s]) b'
      (restS, b'')

/-- `buildWheres`: nothing on an empty list, otherwise `" WHERE "` followed
by the grouped fragments; returns the updated bind counter. -/
def buildWheres (sub : Query → String × Nat) (q : Query) : String × Nat :=
  if q.wheres.length = 0 then ("", q.bind)
  else
    let (s, b') := wheresLoop sub q.args.length q.wheres [] q.bind
    (" WHERE " ++ s, b')

/-- `buildReturning`. -/
def buildReturning (q : Query) : String :=
  if q.ret = [] then "" else " RETURNING " ++ joinSep ", " q.ret

/-- The ORDER BY / LIMIT / OFFSET tail shared by the SELECT, UPDATE and
DELETE branches. -/
def orderPart (q : Query) : String :=
  if ¬ q.order.isZero then
    " ORDER BY " ++ joinSep ", " q.order.cols ++ " " ++ dirStr q.order.dir
  else ""

def limitPart (q : Query) : String :=
  if 0 < q.limit then " LIMIT " ++ toString q.limit else ""

def offsetPart (q : Query) : String :=
  if 0 < q.offset then " OFFSET " ++ toString q.offset else ""

/-- `Build` of this variant, with the pointer receiver made explicit: the
result is the rendered text together with the statement value after the
call (only `bind` is ever written through the receiver).  `fuel` bounds the
sub-query nesting depth. -/
def Build : Nat → Query → String × Query
  | 0, q => ("", q)
  | fuel + 1, q =>
    let sub : Query → String × Nat := fun q2 =>
      let (t, q2') := Build fuel q2
      (t, q2'.bind)
    match q.stmt with
    | .stmtSelect =>
      let (w, b) := buildWheres sub q
      ("SELECT " ++ joinSep ", " q.cols ++ " FROM " ++ q.table ++ w ++
        orderPart q ++ limitPart q ++ offsetPart q, q.withBind b)
    | .stmtInsert =>
      let vals := (List.range q.cols.length).map fun i => param (i + 1)
      ("INSERT INTO " ++ q.table ++ " (" ++ joinSep ", " q.cols ++ ") VALUES (" ++
        joinSep ", " vals ++ ")" ++ buildReturning q, q)
    | .stmtUpdate =>
      let step := fun (p : List String × Nat) (s : SetRow) =>
        match s.val with
        | some v => (p.1 ++ [s.col ++ " = " ++ v], p.2)
        | none => (p.1 ++ [s.col ++ " = " ++ param (p.2 + 1)], p.2 + 1)
      let (sets, b1) := q.sets.foldl step ([], q.bind)
      let (w, b2) := buildWheres sub (q.withBind b1)
      ("UPDATE " ++ q.table ++ " SET " ++ joinSep ", " sets ++ w ++
        limitPart q ++ offsetPart q ++ buildReturning q, q.withBind b2)
    | .stmtDelete =>
      let (w, b) := buildWheres sub q
      ("DELETE FROM " ++ q.table ++ w ++ limitPart q ++ offsetPart q, q.withBind b)
    | .stmtZero => ("", q)

/-- `Args` of this variant. -/
def Args (q : Query) : List ArgV := q.args

/-- `Columns` of this variant (replaces the column list). -/
def Columns (cols : List String) (q : Query) : Query :=
  match q with
  | .mk s t _ w se o l of r a b => .mk s t cols w se o l of r a b

/-- `Table` of this variant (sets the table). -/
def Table (table : String) (q : Query) : Query :=
  match q with
  | .mk s _ c w se o l of r a b => .mk s table c w se o l of r a b

/-- `SetRaw` of this variant: no-op outside UPDATE; appends a set row. -/
def SetRaw (col : String) (val : Option String) (q : Query) : Query :=
  if q.stmt ≠ .stmtUpdate then q
  else
    match q with
    | .mk s t c w se o l of r a b => .mk s t c w (se ++ [⟨col, val⟩]) o l of r a b

/-- `Set` of this variant: a `nil`-valued `SetRaw` followed by appending
the argument. -/
def Set (col : String) (val : ArgV) (q : Query) : Query :=
  match SetRaw col none q with
  | .mk s t c w se o l of r a b => .mk s t c w se o l of r (a ++ [val]) b

/-- `Where` of this variant: appends an AND-category row; the argument is
appended only for the listed comparison operators (the `switch` has no
default case, so `IS` — and any unlisted operator — appends nothing). -/
def Where (col op : String) (val : ArgV) (q : Query) : Query :=
  match q with
  | .mk s t c w se o l of r a b =>
    let a' := if op ∈ ["=", "!=", ">", ">=", "<", "<=", "LIKE"] then a ++ [val] else a
    .mk s t c (w ++ [⟨col, op, none, " AND ", zeroQ⟩]) se o l of r a' b

/-- `WhereEq` of this variant. -/
def WhereEq (col : String) (val : ArgV) (q : Query) : Query := Where col "=" val q

/-- The `Select`, `Insert`, `Update`, `Delete` constructors of this
variant. -/
def initQ (s : Stmt) : Query := .mk s "" [] [] [] {} 0 0 [] [] 0

def Update (opts : List (Query → Query)) : Query :=
  opts.foldl (fun q o => o q) (initQ .stmtUpdate)

def Select (opts : List (Query → Query)) : Query :=
  opts.foldl (fun q o => o q) (initQ .stmtSelect)

end V1

/-!
## Placeholder counting

`Nat.toDigits` never produces a `?` character, so decimal renders of
integers are clean; the engine's keywords and separators are clean, so the
`?` count of a render is the sum of the clause texts' `?` counts.
-/

theorem digitChar_ne_q (m : Nat) : Nat.digitChar m ≠ '?' := by
  have h16 : ∀ m, m < 16 → Nat.digitChar m ≠ '?' := by decide
  by_cases h : m < 16
  · exact h16 m h
  · unfold Nat.digitChar
    iterate 16 rw [if_neg (by omega)]
    decide

theorem toDigitsCore_ne_q (f : Nat) :
    ∀ (n : Nat) (ds : List Char), (∀ c ∈ ds, c ≠ '?') →
      ∀ c ∈ Nat.toDigitsCore 10 f n ds, c ≠ '?' := by
  induction f with
  | zero =>
    intro n ds h
    simpa [Nat.toDigitsCore] using h
  | succ f ih =>
    intro n ds h
    simp only [Nat.toDigitsCore]
    have hcons : ∀ c ∈ Nat.digitChar (n % 10) :: ds, c ≠ '?' := by
      intro c hc
      rcases List.mem_cons.mp hc with h1 | h2
      · subst h1; exact digitChar_ne_q _
      · exact h c h2
    split
    · exact hcons
    · exact ih _ _ hcons

theorem toDigits_ne_q (n : Nat) : ∀ c ∈ Nat.toDigits 10 n, c ≠ '?' := by
  intro c hc
  exact toDigitsCore_ne_q _ _ _ (by simp) c hc

theorem count_toDigits (n : Nat) : (Nat.toDigits 10 n).count '?' = 0 := by
  rw [List.count_eq_zero]
  intro hmem
  exact toDigits_ne_q n '?' hmem rfl

theorem countQ_natRepr (n : Nat) : countQ (Nat.repr n) = 0 := by
  simp only [countQ, Nat.repr, List.asString]
  exact count_toDigits n

theorem countQ_toString_int (n : Int) : countQ (toString n) = 0 := by
  show countQ (Int.repr n) = 0
  cases n with
  | ofNat m => simpa [Int.repr] using countQ_natRepr m
  | negSucc m =>
    simp only [Int.repr]
    rw [countQ_append]
    simpa [countQ] using countQ_natRepr (m + 1)

theorem countQ_ite (P : Prop) [Decidable P] (a b : String)
    (ha : countQ a = 0) (hb : countQ b = 0) : countQ (if P then a else b) = 0 := by
  split <;> assumption

namespace V2

theorem countQ_kwFor (k : Kind) : countQ (kwFor k) = 0 := by
  cases k <;> decide

theorem countQ_sepFor (cl : Clause) (prev : Option Clause) (next : Option Clause)
    (hnext : ∀ n, next = some n → countQ n.conj = 0) :
    countQ (sepFor cl prev next) = 0 := by
  cases next with
  | none =>
    simp only [sepFor]
    exact countQ_ite _ _ _ (by decide) (by decide)
  | some n =>
    simp only [sepFor]
    split
    · rw [countQ_append, countQ_append, hnext n rfl]
      have h1 : countQ (if wrapFor cl prev n then ")" else "") = 0 :=
        countQ_ite _ _ _ (by decide) (by decide)
      have h2 : countQ (if wrapFor cl prev n then "(" else "") = 0 :=
        countQ_ite _ _ _ (by decide) (by decide)
      omega
    · rw [countQ_append]
      have h1 : countQ (if cl.kind = Kind.whereKind then ")" else "") = 0 :=
        countQ_ite _ _ _ (by decide) (by decide)
      have h2 : countQ " " = 0 := by decide
      omega

/-- The `?` count of the clause walk is the sum of the clause texts' `?`
counts (keywords, separators and parentheses are clean, provided the stored
conjunction strings are). -/
theorem countQ_buildClauses :
    ∀ (cls : List Clause) (prev : Option Clause) (seen : List Kind),
      (∀ cl ∈ cls, countQ cl.conj = 0) →
      countQ (buildClauses cls prev seen).1 = (cls.map fun cl => countQ cl.build).sum := by
  intro cls
  induction cls with
  | nil => intro prev seen _; simp [buildClauses, countQ]
  | cons cl rest ih =>
    intro prev seen h
    have hrest : ∀ c ∈ rest, countQ c.conj = 0 := fun c hc => h c (List.mem_cons_of_mem _ hc)
    have hnext : ∀ n, rest.head? = some n → countQ n.conj = 0 := by
      intro n hn
      exact hrest n (List.mem_of_mem_head? hn)
    simp only [buildClauses]
    rw [countQ_append, countQ_append, countQ_append, ih (some cl) _ hrest,
      countQ_sepFor cl prev rest.head? hnext]
    have hkw : countQ (if (if cl.kind ∈ seen then false else true) = true then kwFor cl.kind else "") = 0 :=
      countQ_ite _ _ _ (countQ_kwFor _) (by decide)
    simp only [List.map_cons, List.sum_cons]
    omega

/-- Sum of the `?` counts of a query's clause texts. -/
def sumClause (q : Query) : Nat := (q.clauses.map fun cl => countQ cl.build).sum

theorem countQ_stmtStr (s : Stmt) : countQ (stmtStr s) = 0 := by
  cases s <;> decide

/-- The `?` count of the whole initial render is the sum over the clause
texts. -/
theorem countQ_buildInitial (q : Query)
    (h : ∀ cl ∈ q.clauses, countQ cl.conj = 0) :
    countQ (buildInitial q) = sumClause q := by
  unfold buildInitial
  rw [countQ_append, countQ_append, countQ_buildClauses q.clauses none [] h,
    countQ_stmtStr]
  have hsp : countQ " " = 0 := by decide
  simp [sumClause, hsp]

end V2

namespace V2

theorem conj_list (k : Kind) (items : List String) :
    (Clause.list k items).conj = if k = .valuesKind then ", " else " " := rfl

theorem conj_column (c o v cj : String) (k : Kind) :
    (Clause.column c o v cj k).conj =
      if k = .whereKind then " " ++ cj ++ " "
      else if k = .setKind then cj ++ " " else " " := rfl

theorem conj_table (k : Kind) (i : String) : (Clause.table k i).conj = " " := rfl
theorem conj_portion (k : Kind) (n : Int) : (Clause.portion k n).conj = " " := rfl
theorem conj_order (c d : String) : (Clause.order c d).conj = " " := rfl
theorem conj_alias (n : String) : (Clause.alias n).conj = " " := rfl
theorem conj_count (e : String) : (Clause.count e).conj = " " := rfl

/-- The builder invariant behind placeholder/argument alignment: every
stored conjunction string is clean, and the clause texts carry exactly as
many `?` placeholders as there are stored arguments. -/
def Inv (q : Query) : Prop :=
  (∀ cl ∈ q.clauses, countQ cl.conj = 0) ∧ sumClause q = q.args.length

theorem inv_append (q : Query) (cl : Clause) (newArgs : List ArgV)
    (h : Inv q) (hconj : countQ cl.conj = 0)
    (hcb : countQ cl.build = newArgs.length) :
    Inv { q with clauses := q.clauses ++ [cl], args := q.args ++ newArgs } := by
  constructor
  · intro c hc
    rcases List.mem_append.mp hc with h1 | h2
    · exact h.1 c h1
    · rw [List.mem_singleton.mp h2]; exact hconj
  · have h2 := h.2
    simp only [sumClause, List.map_append, List.sum_append, List.length_append,
      List.map_cons, List.map_nil, List.sum_cons, List.sum_nil] at h2 ⊢
    omega

theorem inv_append0 (q : Query) (cl : Clause)
    (h : Inv q) (hconj : countQ cl.conj = 0) (hcb : countQ cl.build = 0) :
    Inv { q with clauses := q.clauses ++ [cl] } := by
  constructor
  · intro c hc
    rcases List.mem_append.mp hc with h1 | h2
    · exact h.1 c h1
    · rw [List.mem_singleton.mp h2]; exact hconj
  · have h2 := h.2
    simp only [sumClause, List.map_append, List.sum_append,
      List.map_cons, List.map_nil, List.sum_cons, List.sum_nil] at h2 ⊢
    omega

theorem map_const_q_sum (l : List ArgV) :
    ((l.map fun _ => "?").map countQ).sum = l.length := by
  induction l with
  | nil => simp
  | cons a r ih =>
    simp only [List.map_cons, List.sum_cons, List.length_cons, ih]
    have : countQ "?" = 1 := by decide
    omega

theorem countQ_qlist (vals : List ArgV) :
    countQ ("(" ++ joinSep ", " (vals.map fun _ => "?") ++ ")") = vals.length := by
  rw [countQ_append, countQ_append, countQ_joinSep ", " (by decide)]
  have h1 : countQ "(" = 0 := by decide
  have h2 : countQ ")" = 0 := by decide
  rw [map_const_q_sum]
  omega

theorem countQ_expand (vals : List ArgV) : countQ (expand vals) = vals.length :=
  countQ_qlist vals

theorem countQ_joinSep_clean (l : List String) (h : ∀ s ∈ l, countQ s = 0) :
    countQ (joinSep ", " l) = 0 := by
  rw [countQ_joinSep ", " (by decide)]
  apply List.sum_eq_zero
  intro x hx
  rcases List.mem_map.mp hx with ⟨s, hs, rfl⟩
  exact h s hs

theorem countQ_headI (l : List String) (h : ∀ s ∈ l, countQ s = 0) (hne : l ≠ []) :
    countQ l.headI = 0 := by
  cases l with
  | nil => exact absurd rfl hne
  | cons s r => exact h s (List.mem_cons_self _ _)

theorem mutFirst_clean (cols : List String) (h : ∀ c ∈ cols, countQ c = 0) :
    ∀ c ∈ mutFirst cols, countQ c = 0 := by
  cases cols with
  | nil => simp [mutFirst]
  | cons c r =>
    intro x hx
    rcases List.mem_cons.mp hx with h1 | h2
    · subst h1
      rw [countQ_append]
      have := h c (List.mem_cons_self _ _)
      have hp : countQ "(" = 0 := by decide
      omega
    · exact h x (List.mem_cons_of_mem _ h2)

theorem mutLast_clean (cols : List String) (h : ∀ c ∈ cols, countQ c = 0) :
    ∀ c ∈ mutLast cols, countQ c = 0 := by
  induction cols with
  | nil => simp [mutLast]
  | cons c r ih =>
    cases r with
    | nil =>
      intro x hx
      rw [List.mem_singleton.mp hx, countQ_append]
      have := h c (List.mem_cons_self _ _)
      have hp : countQ ")" = 0 := by decide
      omega
    | cons c2 r2 =>
      intro x hx
      rcases List.mem_cons.mp hx with h1 | h2
      · subst h1; exact h x (List.mem_cons_self _ _)
      · exact ih (fun y hy => h y (List.mem_cons_of_mem _ hy)) x h2

theorem mutCols_clean (cols : List String) (h : ∀ c ∈ cols, countQ c = 0) :
    ∀ c ∈ mutCols cols, countQ c = 0 :=
  mutLast_clean _ (mutFirst_clean cols h)

/-- The statements reachable through the public options of `option.go` from
the statement constructors, with user-supplied strings clean (no `?`
characters) and `Set` applied only to UPDATE statements. -/
inductive ReachClean : Query → Prop where
  | init (s : Stmt) : ReachClean (init s)
  | rAs {q} (h : ReachClean q) (name : String) (hn : cleanS name) :
      ReachClean (As name q)
  | rColumns {q} (h : ReachClean q) (cols : List String)
      (hc : ∀ c ∈ cols, cleanS c) : ReachClean (Columns cols q)
  | rCount {q} (h : ReachClean q) (e : String) (he : cleanS e) :
      ReachClean (Count e q)
  | rFrom {q} (h : ReachClean q) (item : String) (hi : cleanS item) :
      ReachClean (From item q)
  | rInto {q} (h : ReachClean q) (item : String) (hi : cleanS item) :
      ReachClean (Into item q)
  | rLimit {q} (h : ReachClean q) (n : Int) : ReachClean (Limit n q)
  | rOffset {q} (h : ReachClean q) (n : Int) : ReachClean (Offset n q)
  | rOrderAsc {q} (h : ReachClean q) (col : String) (hc : cleanS col) :
      ReachClean (OrderAsc col q)
  | rOrderDesc {q} (h : ReachClean q) (col : String) (hc : cleanS col) :
      ReachClean (OrderDesc col q)
  | rOrWhere {q} (h : ReachClean q) (col op : String) (vals : List ArgV)
      (hc : cleanS col) (ho : cleanS op) : ReachClean (OrWhere col op vals q)
  | rOrWhereQuery {q1 q2} (h1 : ReachClean q1) (h2 : ReachClean q2)
      (col op : String) (hc : cleanS col) (ho : cleanS op) :
      ReachClean (OrWhereQuery col op q2 q1)
  | rOrWhereRaw {q} (h : ReachClean q) (col op : String) (vals : List String)
      (hc : cleanS col) (ho : cleanS op) (hv : ∀ v ∈ vals, cleanS v) :
      ReachClean (OrWhereRaw col op vals q)
  | rReturning {q} (h : ReachClean q) (cols : List String)
      (hc : ∀ c ∈ cols, cleanS c) : ReachClean (Returning cols q)
  | rSet {q} (h : ReachClean q) (col : String) (v : ArgV) (hc : cleanS col)
      (hu : q.stmt = .updateStmt) : ReachClean (Set col v q)
  | rSetRaw {q} (h : ReachClean q) (col val : String) (hc : cleanS col)
      (hv : cleanS val) : ReachClean (SetRaw col val q)
  | rTable {q} (h : ReachClean q) (item : String) (hi : cleanS item) :
      ReachClean (Table item q)
  | rValues {q} (h : ReachClean q) (vals : List ArgV) : ReachClean (Values vals q)
  | rWhere {q} (h : ReachClean q) (col op : String) (vals : List ArgV)
      (hc : cleanS col) (ho : cleanS op) : ReachClean (Where col op vals q)
  | rWhereRaw {q} (h : ReachClean q) (col op : String) (vals : List String)
      (hc : cleanS col) (ho : cleanS op) (hv : ∀ v ∈ vals, cleanS v) :
      ReachClean (WhereRaw col op vals q)
  | rWhereQuery {q1 q2} (h1 : ReachClean q1) (h2 : ReachClean q2)
      (col op : String) (hc : cleanS col) (ho : cleanS op) :
      ReachClean (WhereQuery col op q2 q1)

end V2

namespace V2

theorem build_column (c o v cj : String) (k : Kind) :
    (Clause.column c o v cj k).build = c ++ " " ++ o ++ " " ++ v := rfl

/-- Every reachable clean statement satisfies the builder invariant: clean
conjunctions and clause-text `?` counts summing to the argument count. -/
theorem reach_inv {q : Query} (h : ReachClean q) : Inv q := by
  induction h with
  | init s =>
    exact ⟨by simp [init], by simp [Inv, init, sumClause]⟩
  | rAs h name hn ih =>
    exact inv_append0 _ _ ih (by rw [conj_alias]; decide) hn
  | rColumns h cols hc ih =>
    simp only [Columns]
    apply inv_append0 _ _ ih (by rw [conj_list]; decide)
    show countQ ((Clause.list .columnsKind _).build) = 0
    rw [show ∀ items, (Clause.list .columnsKind items).build = joinSep ", " items from fun _ => rfl]
    split
    · exact countQ_joinSep_clean _ (mutCols_clean cols hc)
    · exact countQ_joinSep_clean _ hc
  | rCount h e he ih =>
    apply inv_append0 _ _ ih (by rw [conj_count]; decide)
    show countQ ("COUNT(" ++ e ++ ")") = 0
    have he2 : countQ e = 0 := he
    simp only [countQ_append, he2]
    decide
  | rFrom h item hi ih =>
    unfold From
    split
    · exact inv_append0 _ _ ih (by rw [conj_table]; decide) hi
    · exact ih
  | rInto h item hi ih =>
    unfold Into
    split
    · exact inv_append0 _ _ ih (by rw [conj_table]; decide) hi
    · exact ih
  | rLimit h n ih =>
    exact inv_append0 _ _ ih (by rw [conj_portion]; decide) (countQ_toString_int n)
  | rOffset h n ih =>
    exact inv_append0 _ _ ih (by rw [conj_portion]; decide) (countQ_toString_int n)
  | rOrderAsc h col hc ih =>
    apply inv_append0 _ _ ih (by rw [conj_order]; decide)
    show countQ (col ++ " " ++ "ASC") = 0
    have hc2 : countQ col = 0 := hc
    simp only [countQ_append, hc2]
    decide
  | rOrderDesc h col hc ih =>
    apply inv_append0 _ _ ih (by rw [conj_order]; decide)
    show countQ (col ++ " " ++ "DESC") = 0
    have hc2 : countQ col = 0 := hc
    simp only [countQ_append, hc2]
    decide
  | rOrWhere h col op vals hc ho ih =>
    by_cases hvals : vals = []
    · simpa [OrWhere, hvals] using ih
    · have hlen : 0 < vals.length := List.length_pos.mpr hvals
      simp only [OrWhere, if_neg hvals, realWhere]
      apply inv_append _ _ _ ih (by rw [conj_column]; decide)
      have hc2 : countQ col = 0 := hc
      have ho2 : countQ op = 0 := ho
      rw [build_column]
      simp only [countQ_append, hc2, ho2]
      have hsp : countQ " " = 0 := by decide
      split
      · rw [countQ_expand]; omega
      · next hlt =>
        have : vals.length = 1 := by omega
        have h1 : countQ "?" = 1 := by decide
        omega
  | rOrWhereQuery h1 h2 col op hc ho ih1 ih2 =>
    simp only [OrWhereQuery, realWhere]
    apply inv_append _ _ _ ih1 (by rw [conj_column]; decide)
    have hc2 : countQ col = 0 := hc
    have ho2 : countQ op = 0 := ho
    rw [build_column]
    simp only [countQ_append, hc2, ho2, countQ_buildInitial _ ih2.1]
    have hsp : countQ " " = 0 := by decide
    have hp1 : countQ "(" = 0 := by decide
    have hp2 : countQ ")" = 0 := by decide
    have := ih2.2
    omega
  | rOrWhereRaw h col op vals hc ho hv ih =>
    by_cases hvals : vals = []
    · simpa [OrWhereRaw, hvals] using ih
    · simp only [OrWhereRaw, if_neg hvals, realWhere]
      apply inv_append0 _ _ ih (by rw [conj_column]; decide)
      have hc2 : countQ col = 0 := hc
      have ho2 : countQ op = 0 := ho
      have hv2 : ∀ v ∈ vals, countQ v = 0 := hv
      have hval : countQ (if 1 < vals.length then "(" ++ joinSep ", " vals ++ ")" else vals.headI) = 0 := by
        split
        · simp only [countQ_append, countQ_joinSep_clean _ hv2]
          decide
        · exact countQ_headI _ hv2 hvals
      rw [build_column]
      simp only [countQ_append, hc2, ho2, hval]
      decide
  | rReturning h cols hc ih =>
    unfold Returning
    split
    · apply inv_append0 _ _ ih (by rw [conj_list]; decide)
      exact countQ_joinSep_clean _ hc
    · exact ih
  | rSet h col v hc hu ih =>
    simp only [Set, SetRaw]
    rw [if_pos (by simpa using hu)]
    apply inv_append _ _ _ ih (by rw [conj_column]; decide)
    have hc2 : countQ col = 0 := hc
    rw [build_column]
    simp only [countQ_append, hc2, List.length_cons, List.length_nil]
    decide
  | rSetRaw h col val hc hv ih =>
    unfold SetRaw
    split
    · apply inv_append0 _ _ ih (by rw [conj_column]; decide)
      have hc2 : countQ col = 0 := hc
      have hv2 : countQ val = 0 := hv
      rw [build_column]
      simp only [countQ_append, hc2, hv2]
      decide
    · exact ih
  | rTable h item hi ih =>
    unfold Table
    split
    · exact inv_append0 _ _ ih (by rw [conj_table]; decide) hi
    · exact ih
  | rValues h vals ih =>
    unfold Values
    split
    · apply inv_append _ _ _ ih (by rw [conj_list]; decide)
      show countQ ((Clause.list .valuesKind (vals.map fun _ => "?")).build) = vals.length
      rw [show ∀ items, (Clause.list .valuesKind items).build =
        "(" ++ joinSep ", " items ++ ")" from fun _ => rfl]
      exact countQ_qlist vals
    · exact ih
  | rWhere h col op vals hc ho ih =>
    by_cases hvals : vals = []
    · simpa [Where, hvals] using ih
    · have hlen : 0 < vals.length := List.length_pos.mpr hvals
      simp only [Where, if_neg hvals, realWhere]
      apply inv_append _ _ _ ih (by rw [conj_column]; decide)
      have hc2 : countQ col = 0 := hc
      have ho2 : countQ op = 0 := ho
      rw [build_column]
      simp only [countQ_append, hc2, ho2]
      have hsp : countQ " " = 0 := by decide
      split
      · rw [countQ_expand]; omega
      · next hlt =>
        have : vals.length = 1 := by
          rw [not_or] at hlt
          omega
        have h1 : countQ "?" = 1 := by decide
        omega
  | rWhereRaw h col op vals hc ho hv ih =>
    by_cases hvals : vals = []
    · simpa [WhereRaw, hvals] using ih
    · simp only [WhereRaw, if_neg hvals, realWhere]
      apply inv_append0 _ _ ih (by rw [conj_column]; decide)
      have hc2 : countQ col = 0 := hc
      have ho2 : countQ op = 0 := ho
      have hv2 : ∀ v ∈ vals, countQ v = 0 := hv
      have hval : countQ (if 1 < vals.length ∨ op = "IN" then "(" ++ joinSep ", " vals ++ ")"
          else vals.headI) = 0 := by
        split
        · simp only [countQ_append, countQ_joinSep_clean _ hv2]
          decide
        · exact countQ_headI _ hv2 hvals
      rw [build_column]
      simp only [countQ_append, hc2, ho2, hval]
      decide
  | rWhereQuery h1 h2 col op hc ho ih1 ih2 =>
    simp only [WhereQuery, realWhere]
    apply inv_append _ _ _ ih1 (by rw [conj_column]; decide)
    have hc2 : countQ col = 0 := hc
    have ho2 : countQ op = 0 := ho
    rw [build_column]
    simp only [countQ_append, hc2, ho2, countQ_buildInitial _ ih2.1]
    have hsp : countQ " " = 0 := by decide
    have hp1 : countQ "(" = 0 := by decide
    have hp2 : countQ ")" = 0 := by decide
    have := ih2.2
    omega

end V2

theorem string_append_empty (s : String) : s ++ "" = s := by
  cases s with
  | mk d =>
    apply congrArg String.mk
    show d ++ [] = d
    simp

theorem string_empty_append (s : String) : "" ++ s = s := by
  cases s with
  | mk d =>
    apply congrArg String.mk
    show [] ++ d = d
    simp

namespace V3

theorem wrapFor_union (t : String) (prev : Option Clause) (next : Clause)
    (hnext : next.conj = (Clause.unionC t).conj) :
    wrapFor (Clause.unionC t) prev next = false := by
  cases prev with
  | none => rfl
  | some p =>
    simp only [wrapFor]
    rw [if_neg]
    intro h
    exact h.2 hnext

/-- A clause list consisting solely of union members renders as the stored
member texts joined by `" UNION "`: the union kind never opens a keyword,
its separator is always `" UNION "`, and the parenthesis toggle never fires
because consecutive union members share the same separator. -/
theorem buildClauses_union (ts : List String) :
    ∀ (prev : Option Clause) (seen : List Kind),
      (buildClauses (ts.map Clause.unionC) prev seen).1 = joinSep " UNION " ts := by
  induction ts with
  | nil => intro prev seen; simp [buildClauses, joinSep]
  | cons t rest ih =>
    intro prev seen
    cases rest with
    | nil =>
      simp [buildClauses, Clause.kind, sepFor, Clause.build, joinSep,
        string_empty_append, string_append_empty]
    | cons t2 rest2 =>
      have hrec := ih (some (Clause.unionC t)) seen
      simp only [List.map_cons] at hrec ⊢
      have step : (buildClauses (Clause.unionC t :: Clause.unionC t2 :: List.map Clause.unionC rest2)
            prev seen).1 =
          "" ++ (Clause.unionC t).build ++
            sepFor (Clause.unionC t) prev (some (Clause.unionC t2)) ++
            (buildClauses (Clause.unionC t2 :: List.map Clause.unionC rest2)
              (some (Clause.unionC t)) seen).1 := by
        simp [buildClauses, Clause.kind]
      have hsep : sepFor (Clause.unionC t) prev (some (Clause.unionC t2)) = " UNION " := by
        simp [sepFor, Clause.kind, wrapFor_union t prev (Clause.unionC t2) rfl, Clause.conj,
          string_empty_append, string_append_empty, kindStr]
      rw [step, hrec, hsep]
      show "" ++ t ++ " UNION " ++ joinSep " UNION " (t2 :: rest2) = _
      rw [string_empty_append]
      simp [joinSep]

end V3

namespace V3

/-- The clause walk opens each kind at most once: the emitted-keyword list
has no duplicates, and never repeats a kind already in the seen set. -/
theorem buildClauses_kinds_nodup :
    ∀ (cls : List Clause) (prev : Option Clause) (seen : List Kind),
      (buildClauses cls prev seen).2.Nodup ∧
        ∀ k ∈ (buildClauses cls prev seen).2, k ∉ seen := by
  intro cls
  induction cls with
  | nil => intro prev seen; simp [buildClauses]
  | cons cl rest ih =>
    intro prev seen
    by_cases hnew : cl.kind ≠ Kind.unionClause ∧ cl.kind ∉ seen
    · have hb : (if cl.kind ≠ Kind.unionClause ∧ cl.kind ∉ seen then true else false) = true := by
        rw [if_pos hnew]
      have hrest := ih (some cl) (cl.kind :: seen)
      simp only [buildClauses, hb, if_true, List.cons_append, List.nil_append]
      constructor
      · rw [List.nodup_cons]
        refine ⟨fun hmem => ?_, hrest.1⟩
        exact hrest.2 _ hmem (List.mem_cons_self _ _)
      · intro k hk
        rcases List.mem_cons.mp hk with rfl | hk2
        · exact hnew.2
        · intro hse
          exact hrest.2 k hk2 (List.mem_cons_of_mem _ hse)
    · have hb : (if cl.kind ≠ Kind.unionClause ∧ cl.kind ∉ seen then true else false) = false := by
        rw [if_neg hnew]
      have hrest := ih (some cl) seen
      simp only [buildClauses, hb, if_false, List.nil_append, Bool.false_eq_true]
      exact hrest

/-- The kinds of a clause list in order of first appearance (spec-side, for
stating the grouping property). -/
def firstKinds : List Clause → List Kind → List Kind
  | [], _ => []
  | cl :: rest, seen =>
    if cl.kind ∈ seen then firstKinds rest seen
    else cl.kind :: firstKinds rest (cl.kind :: seen)

/-- Every non-union kind present in the clause list gets its keyword
emitted (unless it was already in the seen set): together with
`buildClauses_kinds_nodup` this is "each kind's keyword exactly once per
render pass". -/
theorem buildClauses_kinds_complete :
    ∀ (cls : List Clause) (prev : Option Clause) (seen : List Kind),
      ∀ cl ∈ cls, cl.kind ≠ Kind.unionClause →
        cl.kind ∈ (buildClauses cls prev seen).2 ∨ cl.kind ∈ seen := by
  intro cls
  induction cls with
  | nil => intro prev seen cl hcl; exact absurd hcl (List.not_mem_nil cl)
  | cons cl0 rest ih =>
    intro prev seen cl hcl hku
    by_cases hnew : cl0.kind ≠ Kind.unionClause ∧ cl0.kind ∉ seen
    · have hb : (if cl0.kind ≠ Kind.unionClause ∧ cl0.kind ∉ seen then true else false) = true := by
        rw [if_pos hnew]
      simp only [buildClauses, hb, if_true, List.cons_append, List.nil_append]
      rcases List.mem_cons.mp hcl with rfl | hrest
      · exact Or.inl (List.mem_cons_self _ _)
      · rcases ih (some cl0) (cl0.kind :: seen) cl hrest hku with hin | hseen
        · exact Or.inl (List.mem_cons_of_mem _ hin)
        · rcases List.mem_cons.mp hseen with he | hs
          · exact Or.inl (by rw [he]; exact List.mem_cons_self _ _)
          · exact Or.inr hs
    · have hb : (if cl0.kind ≠ Kind.unionClause ∧ cl0.kind ∉ seen then true else false) = false := by
        rw [if_neg hnew]
      simp only [buildClauses, hb, if_false, List.nil_append, Bool.false_eq_true]
      rcases List.mem_cons.mp hcl with rfl | hrest
      · rw [not_and_or, not_not] at hnew
        rcases hnew with hu | hs
        · exact absurd hu hku
        · exact Or.inr (not_not.mp hs)
      · exact ih (some cl0) seen cl hrest hku
    
/-- Spec-side regrouping of a clause list: all clauses of the same kind made
contiguous, kinds ordered by first appearance, clauses of one kind kept in
insertion order.  The grouping claim says the engine renders a clause list
as if it had been regrouped this way. -/
def groupByKind (cls : List Clause) : List Clause :=
  (firstKinds cls []).foldr
    (fun k acc => cls.filter (fun cl => decide (cl.kind = k)) ++ acc) []

end V3

/-!
## Engine validation against the repository's test expectations

The following statements reproduce expected strings from the variants' own
test files, tying the modelled render engines to the sources.
-/

/-- Test-file expectation: a one-predicate SELECT. -/
theorem v2_test_select_simple :
    V2.Build (V2.Select [V2.Columns ["*"], V2.From "users",
      V2.Where "username" "=" [.vStr "me"]]) =
      "SELECT * FROM users WHERE (username = $1)" := by decide

/-- Test-file expectation: LIMIT and OFFSET after a WHERE group. -/
theorem v2_test_select_limit_offset :
    V2.Build (V2.Select [V2.Columns ["*"], V2.From "posts",
      V2.Where "title" "LIKE" [.vStr "%foo%"], V2.Limit 25, V2.Offset 2]) =
      "SELECT * FROM posts WHERE (title LIKE $1) LIMIT 25 OFFSET 2" := by decide

/-- Test-file expectation: a multi-valued IN list. -/
theorem v2_test_select_in :
    V2.Build (V2.Select [V2.Columns ["*"], V2.From "users",
      V2.Where "id" "IN" [.vInt 1, .vInt 2, .vInt 3, .vInt 4, .vInt 5]]) =
      "SELECT * FROM users WHERE (id IN ($1, $2, $3, $4, $5))" := by decide

/-- Test-file expectation: INSERT with INTO, parenthesized column group,
VALUES and RETURNING. -/
theorem v2_test_insert_returning :
    V2.Build (V2.Insert [V2.Into "users",
      V2.Columns ["email", "username", "password"],
      V2.Values [.vStr "me@exmaple.com", .vStr "me", .vStr "secret"],
      V2.Returning ["id", "created_at"]]) =
      "INSERT INTO users (email, username, password) VALUES ($1, $2, $3) RETURNING id, created_at" := by
  decide

/-- Test-file expectation: UPDATE with SET and WHERE. -/
theorem v2_test_update :
    V2.Build (V2.Update [V2.Table "users", V2.Set "email" (.vStr "me@example.com"),
      V2.Where "id" "=" [.vInt 1]]) =
      "UPDATE users SET email = $1 WHERE (id = $2)" := by decide

/-- Test-file expectation: DELETE with a WHERE group. -/
theorem v2_test_delete :
    V2.Build (V2.Delete [V2.From "users", V2.Where "id" "=" [.vInt 1]]) =
      "DELETE FROM users WHERE (id = $1)" := by decide

/-- Test-file expectation (newest variant): IS with a literal right-hand
side inside the shared WHERE group. -/
theorem v3_test_select_lit :
    V3.Build (V3.Select (.colsE ["*"]) [V3.From "keys",
      V3.Where "name" "=" (.inl (.arg (.vStr "id_rsa"))),
      V3.Where "namespace_id" "IS" (.inl (.lit "NULL"))]) =
      "SELECT * FROM keys WHERE (name = $1 AND namespace_id IS NULL)" := by decide

/-- Test-file expectation (newest variant): conjunction switch closes and
reopens the WHERE parenthesis. -/
theorem v3_test_conjunction_switch :
    V3.Build (V3.Select (.colsE ["*"]) [V3.From "users",
      V3.Where "email" "=" (.inl (.arg (.vStr "me@example.com"))),
      V3.OrWhere "username" "=" (.inl (.arg (.vStr "andrew"))),
      V3.Where "registered" "=" (.inl (.arg (.vBool true)))]) =
      "SELECT * FROM users WHERE (email = $1 OR username = $2) AND (registered = $3)" := by
  decide

set_option maxRecDepth 4000 in
/-- Test-file expectation (newest variant): a UNION nested inside an IN
sub-query, with placeholders numbered once at the outermost build. -/
theorem v3_test_union_nested :
    V3.Build (V3.Select (.colsE ["*"]) [V3.From "variables",
      V3.Where "namespace_id" "IN" (.inr (V3.Select (.colsE ["id"]) [V3.From "namespaces",
        V3.Where "root_id" "IN" (.inr (V3.Union [
          V3.Select (.colsE ["namespace_id"]) [V3.From "namespace_collaborators",
            V3.Where "user_id" "=" (.inl (.arg (.vInt 2)))],
          V3.Select (.colsE ["id"]) [V3.From "namespaces",
            V3.Where "user_id" "=" (.inl (.arg (.vInt 2)))]]))])),
      V3.OrWhere "user_id" "=" (.inl (.arg (.vInt 2)))]) =
      "SELECT * FROM variables WHERE (namespace_id IN (SELECT id FROM namespaces WHERE (root_id IN (SELECT namespace_id FROM namespace_collaborators WHERE (user_id = $1) UNION SELECT id FROM namespaces WHERE (user_id = $2)))) OR user_id = $3)" := by
  decide

/-- Test-file expectation (oldest variant): UPDATE with SET and WHERE,
parameters numbered by the bind counter. -/
theorem v1_test_update :
    (V1.Build 10 (V1.Update [V1.Table "users", V1.Set "email" (.vStr "me@example.com"),
      V1.WhereEq "id" (.vInt 1234)])).1 =
      "UPDATE users SET email = $1 WHERE id = $2" := by decide

/-!
## The claimed properties

Concrete statements used by the claims below.
-/

/-- A SELECT statement that receives a `Set` option: `Set` appends its
argument before `SetRaw` drops the clause on the non-UPDATE statement. -/
def c1qBad : V2.Query :=
  V2.Select [V2.Columns ["*"], V2.From "users", V2.Set "email" (.vStr "x"),
    V2.Where "id" "=" [.vInt 1]]

/-- A small clean reachable SELECT statement, written as the option
applications `Select(Columns("*"), From("users"), Where("username", "=",
"me"))` performs them. -/
def c1qGood : V2.Query :=
  V2.Where "username" "=" [.vStr "me"] (V2.From "users" (V2.Columns ["*"] (V2.init .selectStmt)))

/-- The sub-query of the nested test expectation. -/
def c4sub : V2.Query :=
  V2.Select [V2.Columns ["post_id"], V2.From "tags", V2.Where "title" "LIKE" [.vStr "%foo%"]]

/-- The outer statement embedding `c4sub` through `WhereQuery`. -/
def c4outer : V2.Query :=
  V2.Select [V2.Columns ["*"], V2.From "posts", V2.Where "user_id" "=" [.vInt 1],
    V2.WhereQuery "id" "IN" c4sub]

/-- The UPDATE statement of the oldest variant's own test. -/
def c6q : V1.Query :=
  V1.Update [V1.Table "users", V1.Set "email" (.vStr "me@example.com"),
    V1.WhereEq "id" (.vInt 1234)]

/-- An INSERT statement of the newest variant. -/
def c7q : V3.Query := V3.Insert "users" (.colsE ["email"]) []

/-- A statement whose insertion order interleaves WHERE and ORDER BY
clauses. -/
def c8q : V3.Query :=
  V3.Select (.colsE ["*"]) [V3.From "t", V3.Where "a" "=" (.inl (.arg (.vInt 1))),
    V3.OrderAsc ["x"], V3.Where "b" "=" (.inl (.arg (.vInt 2)))]

/-- `c8q` with its clause list regrouped by kind. -/
def c8qGrouped : V3.Query := { c8q with clauses := V3.groupByKind c8q.clauses }

/-- A single-valued `OrWhere` with operator `IN`. -/
def c9q : V2.Query :=
  V2.Select [V2.Columns ["*"], V2.From "users", V2.OrWhere "id" "IN" [.vInt 1]]

/-- The slice captured by the `Columns("email", "username")` option value
lives at heap address 0. -/
def c10heap0 : V2.SliceHeap := [["email", "username"]]

/-- An INSERT statement with its INTO clause. -/
def c10ins : V2.HQuery :=
  { stmt := .insertStmt, clauses := [.plain (.table .intoKind "users")] }

/-- First application of the option value to `c10ins`. -/
def c10step1 : V2.SliceHeap × V2.HQuery := V2.ColumnsRef 0 c10heap0 c10ins

/-- Second application of the same option value to the same statement. -/
def c10step2same : V2.SliceHeap × V2.HQuery := V2.ColumnsRef 0 c10step1.1 c10step1.2

/-- Second application of the same option value to a second INSERT
statement. -/
def c10step2other : V2.SliceHeap × V2.HQuery := V2.ColumnsRef 0 c10step1.1 c10ins

/-- C1 — the claim as frozen is false on the code: `Set` applied to a
SELECT statement (a public option applied through the public constructors)
appends its argument even though the SET clause is dropped, so the rendered
text of `c1qBad` has one placeholder while `Args()` has two elements; the
`$1` of `Build()` does not correspond to the first argument `"x"` but to
the second. -/
theorem c1_set_on_select_misaligns :
    countQ (V2.buildInitial c1qBad) = 1 ∧ (V2.Args c1qBad).length = 2 ∧
      countQ (V2.buildInitial c1qBad) ≠ (V2.Args c1qBad).length ∧
      V2.Build c1qBad = "SELECT * FROM users WHERE (id = $1)" := by decide

/-- C1 (amended) — for every statement built through the public options in
which `Set`/`SetRaw` is only applied to UPDATE statements and the
user-supplied strings contain no `?`, the number of `?` placeholders in the
initial render equals `len(Args())`; `Build()` replaces the k-th
placeholder with `$k` leaving all other characters unchanged (the segments
between placeholders are interleaved with `$1`, `$2`, ...), so the k-th
`$n` marker is `$k` and corresponds to the k-th element of `Args()`. -/
theorem c1_placeholder_alignment (q : V2.Query) (h : V2.ReachClean q) :
    countQ (V2.buildInitial q) = (V2.Args q).length ∧
      V2.Build q = String.mk (renumberFrom 0 (splitQ (V2.buildInitial q).data)) ∧
      (splitQ (V2.buildInitial q).data).length = (V2.Args q).length + 1 := by
  have hinv := V2.reach_inv h
  have hcount : countQ (V2.buildInitial q) = (V2.Args q).length := by
    rw [V2.countQ_buildInitial _ hinv.1]
    exact hinv.2
  refine ⟨hcount, ?_, ?_⟩
  · unfold V2.Build
    rw [substChars_eq_renumber]
  · rw [splitQ_length]
    show countQ (V2.buildInitial q) + 1 = _
    omega

/-- C1 (witness) — the alignment theorem applied to a concrete reachable
statement. -/
theorem c1_placeholder_alignment_witness :
    countQ (V2.buildInitial c1qGood) = (V2.Args c1qGood).length :=
  (c1_placeholder_alignment c1qGood
    (V2.ReachClean.rWhere
      (V2.ReachClean.rFrom
        (V2.ReachClean.rColumns (V2.ReachClean.init V2.Stmt.selectStmt) ["*"] (by decide))
        "users" (by decide))
      "username" "=" [.vStr "me"] (by decide) (by decide))).1

/-- C2 — the documented conjunction-switch example renders exactly as
claimed: the engine closes the open parenthesis before the switched
separator and reopens one after it. -/
theorem c2_conjunction_switch_example :
    V2.Build (V2.Select [V2.Columns ["*"], V2.From "users",
      V2.Where "username" "=" [.vStr "me"],
      V2.OrWhere "email" "=" [.vStr "x@y.com"],
      V2.Where "registered" "=" [.vBool true]]) =
      "SELECT * FROM users WHERE (username = $1 OR email = $2) AND (registered = $3)" := by
  decide

/-- C3 — `Build` first renders the text with `?` placeholders
(`buildInitial`) and then replaces the k-th left-to-right `?` with `$k`:
the result interleaves the segments of the rendered text split on `?` with
`$1`, `$2`, ... (all other characters unchanged), one marker per
placeholder. -/
theorem c3_build_renumbers_initial (q : V3.Query) :
    V3.Build q = String.mk (renumberFrom 0 (splitQ (V3.buildInitial q).data)) ∧
      (splitQ (V3.buildInitial q).data).length = countQ (V3.buildInitial q) + 1 := by
  constructor
  · unfold V3.Build
    rw [substChars_eq_renumber]
  · exact splitQ_length _

/-- C4 — `WhereQuery` (and the newest variant's `realWhere` on a `Query`
right operand) embeds the sub-statement's non-numbered render,
parenthesized, as the predicate value, and appends the sub-statement's
arguments after the parent's in order; the concrete nested statement shows
the embedded placeholders are renumbered exactly once, at the outermost
`Build` (the inner statement's own build numbers from `$1`, the outer one
continues with `$2` inside the embedded text). -/
theorem c4_subquery_embedding :
    (∀ (col op : String) (q2 q1 : V2.Query),
      (V2.WhereQuery col op q2 q1).args = q1.args ++ q2.args ∧
        (V2.WhereQuery col op q2 q1).clauses = q1.clauses ++
          [V2.Clause.column col op ("(" ++ V2.buildInitial q2 ++ ")") "AND" V2.Kind.whereKind]) ∧
    (∀ (cj col op : String) (q2 q1 : V3.Query),
      (V3.realWhere cj (.ident col) op (.inr q2) q1).args = q1.args ++ V3.Args q2 ∧
        (V3.realWhere cj (.ident col) op (.inr q2) q1).clauses = q1.clauses ++
          [V3.Clause.whereC cj op (.ident col)
            (.lit ("(" ++ V3.buildInitial q2 ++ ")"))]) ∧
    V2.Build c4sub = "SELECT post_id FROM tags WHERE (title LIKE $1)" ∧
    V2.Build c4outer =
      "SELECT * FROM posts WHERE (user_id = $1 AND id IN (SELECT post_id FROM tags WHERE (title LIKE $2)))" := by
  refine ⟨fun col op q2 q1 => ⟨rfl, rfl⟩, fun cj col op q2 q1 => ⟨rfl, rfl⟩, by decide, by decide⟩

/-- C5 — `Union` concatenates the member statements' argument lists in
order and renders as the members' (non-numbered) texts joined by
`" UNION "`, with no leading statement keyword (the text starts with the
first member's own text). -/
theorem c5_union_concat (qs : List V3.Query) :
    V3.Args (V3.Union qs) = (qs.map V3.Args).flatten ∧
      V3.buildInitial (V3.Union qs) = joinSep " UNION " (qs.map V3.buildInitial) := by
  constructor
  · show (qs.map fun q => q.args).foldr (· ++ ·) [] = (qs.map V3.Args).flatten
    induction qs with
    | nil => rfl
    | cons q rest ih =>
      simp only [List.map_cons, List.foldr_cons, List.flatten_cons, ih]
      rfl
  · have h1 : V3.buildInitial (V3.Union qs) =
        "" ++ "" ++
          (V3.buildClauses (qs.map fun q => V3.Clause.unionC (V3.buildInitial q)) none []).1 := rfl
    rw [h1,
      show (qs.map fun q => V3.Clause.unionC (V3.buildInitial q)) =
        (qs.map V3.buildInitial).map V3.Clause.unionC from by rw [List.map_map]; rfl,
      V3.buildClauses_union, string_empty_append, string_empty_append]

/-- C6 — the claim as frozen is false on the `query.go` variant it cites:
`Build` has a pointer receiver and advances the statement's bind counter, so
calling `Build` twice on the same statement value yields different text and
the observable state (the bind counter) changes. -/
theorem c6_build_mutates_bind :
    (V1.Build 10 c6q).1 ≠ (V1.Build 10 (V1.Build 10 c6q).2).1 ∧
      (V1.Build 10 c6q).2.bind ≠ c6q.bind := by decide

/-- C6 (amended) — on the `query.go` variant, `Build` leaves the clause
rows and arguments unchanged but advances the bind counter through its
pointer receiver, so a second call on the post-call statement renumbers the
placeholders and yields different text.  (The clause-based engines of this
repository take the statement by value, so their `Build` reads the
statement without mutating it and repeated calls yield identical text.) -/
theorem c6_build_bind_behavior :
    (V1.Build 10 c6q).1 = "UPDATE users SET email = $1 WHERE id = $2" ∧
      (V1.Build 10 c6q).2.wheres = c6q.wheres ∧
      (V1.Build 10 c6q).2.sets = c6q.sets ∧
      (V1.Build 10 c6q).2.args = c6q.args ∧
      c6q.bind = 0 ∧
      (V1.Build 10 c6q).2.bind = 2 ∧
      (V1.Build 10 (V1.Build 10 c6q).2).1 =
        "UPDATE users SET email = $3 WHERE id = $4" := by
  exact ⟨by decide, rfl, rfl, rfl, by decide, by decide, by decide⟩

/-- C7 — the claim as frozen is false on the newest variant's `From`
(`clause.go`), which appends a FROM clause regardless of the statement
kind: applied to an INSERT statement it increases the clause count and
changes the rendered text. -/
theorem c7_from_on_insert_appends :
    (V3.From "x" c7q).clauses.length = c7q.clauses.length + 1 ∧
      V3.buildInitial (V3.From "x" c7q) ≠ V3.buildInitial c7q := by decide

/-- C7 (amended) — `From` of `option.go` is a no-op on INSERT statements:
the statement is returned unchanged (same clause count, same rendered
text); the newest variant's `From` has no such guard. -/
theorem c7_from_noop_v2 (item : String) (q : V2.Query)
    (h : q.stmt = V2.Stmt.insertStmt) : V2.From item q = q := by
  unfold V2.From
  rw [if_neg]
  rw [h]
  intro hc
  rcases hc with hc | hc <;> exact V2.Stmt.noConfusion hc

/-- C7 (witness) — the no-op theorem applied to a fresh INSERT statement. -/
theorem c7_from_noop_v2_witness :
    (V2.init .insertStmt).stmt = V2.Stmt.insertStmt ∧
      V2.From "users" (V2.init .insertStmt) = V2.init .insertStmt :=
  ⟨rfl, c7_from_noop_v2 "users" (V2.init .insertStmt) rfl⟩

/-- C8 — the claim as frozen is false: the engine walks the clause list in
insertion order and never regroups it, so interleaving kinds leaves
same-kind clauses non-contiguous in the rendered text.  On `c8q` (WHERE,
ORDER BY, WHERE) the second WHERE clause renders after the ORDER BY text —
the output differs from the render of the by-kind regrouped clause list
(which is what contiguity would require), and is even unbalanced. -/
theorem c8_interleaved_not_grouped :
    V3.buildInitial c8q = "SELECT * FROM t WHERE (a = ?) ORDER BY x ASC b = ?)" ∧
      V3.buildInitial c8qGrouped =
        "SELECT * FROM t WHERE (a = ? AND b = ?) ORDER BY x ASC" ∧
      V3.buildInitial c8q ≠ V3.buildInitial c8qGrouped := by decide

/-- C8 (amended) — what the engine does guarantee is the second half of the
claim: each kind's keyword is emitted exactly once per render pass (the
emitted-keyword list of any clause walk has no duplicates); clauses of one
kind are contiguous in the output only when they are contiguous in
insertion order. -/
theorem c8_keyword_once (q : V3.Query) :
    (V3.emittedKinds q).Nodup ∧
      ∀ cl ∈ q.clauses, cl.kind ≠ V3.Kind.unionClause →
        cl.kind ∈ V3.emittedKinds q := by
  refine ⟨(V3.buildClauses_kinds_nodup q.clauses none []).1, ?_⟩
  intro cl hcl hku
  rcases V3.buildClauses_kinds_complete q.clauses none [] cl hcl hku with h | h
  · exact h
  · exact absurd h (List.not_mem_nil _)

/-- C9 — the claim as frozen is false for `OrWhere`: unlike `Where`, its
value is only expanded into a parenthesized placeholder list when more than
one value is given — there is no `op == "IN"` test — so a single-valued
`OrWhere(col, "IN", v)` renders an unparenthesized `IN $n`. -/
theorem c9_orwhere_in_single_unparenthesized :
    V2.Build c9q = "SELECT * FROM users WHERE (id IN $1)" ∧
      V2.Build c9q ≠ "SELECT * FROM users WHERE (id IN ($1))" := by decide

/-- C9 (amended) — `Where` renders a parenthesized comma list of `?`
placeholders, one per value, whenever more than one value is given or the
operator is `IN` (including a single value with `IN`), appending every
value as an argument; `OrWhere` does so only for more than one value, and a
single-valued `OrWhere` renders a bare `?` whatever the operator; the
expanded list carries exactly one placeholder per value. -/
theorem c9_in_expansion :
    (∀ (col op : String) (vals : List ArgV) (q : V2.Query), vals ≠ [] →
      1 < vals.length ∨ op = "IN" →
      (V2.Where col op vals q).clauses = q.clauses ++
          [V2.Clause.column col op (V2.expand vals) "AND" V2.Kind.whereKind] ∧
        (V2.Where col op vals q).args = q.args ++ vals) ∧
    (∀ (col op : String) (vals : List ArgV) (q : V2.Query), 1 < vals.length →
      (V2.OrWhere col op vals q).clauses = q.clauses ++
          [V2.Clause.column col op (V2.expand vals) "OR" V2.Kind.whereKind] ∧
        (V2.OrWhere col op vals q).args = q.args ++ vals) ∧
    (∀ (col op : String) (v : ArgV) (q : V2.Query),
      (V2.OrWhere col op [v] q).clauses = q.clauses ++
          [V2.Clause.column col op "?" "OR" V2.Kind.whereKind] ∧
        (V2.OrWhere col op [v] q).args = q.args ++ [v]) ∧
    (∀ vals : List ArgV, countQ (V2.expand vals) = vals.length) := by
  refine ⟨?_, ?_, ?_, V2.countQ_expand⟩
  · intro col op vals q hne hcond
    simp only [V2.Where, if_neg hne, if_pos hcond]
    exact ⟨rfl, rfl⟩
  · intro col op vals q hlen
    have hne : vals ≠ [] := by
      intro h
      rw [h] at hlen
      simp at hlen
    simp only [V2.OrWhere, if_neg hne, if_pos hlen]
    exact ⟨rfl, rfl⟩
  · intro col op v q
    have hne : ([v] : List ArgV) ≠ [] := by simp
    have hlen : ¬ 1 < ([v] : List ArgV).length := by simp
    simp only [V2.OrWhere, if_neg hne, if_neg hlen]
    exact ⟨rfl, rfl⟩

/-- C9 (witness) — the amended theorem applied at concrete inputs: a
single-valued `Where` with `IN` expands, a single-valued `OrWhere` with
`IN` does not. -/
theorem c9_in_expansion_witness :
    ((V2.Where "id" "IN" [ArgV.vInt 1] (V2.init .selectStmt)).clauses =
        [V2.Clause.column "id" "IN" (V2.expand [ArgV.vInt 1]) "AND" V2.Kind.whereKind] ∧
      (V2.Where "id" "IN" [ArgV.vInt 1] (V2.init .selectStmt)).args = [ArgV.vInt 1]) ∧
    ((V2.OrWhere "id" "IN" [ArgV.vInt 1] (V2.init .selectStmt)).clauses =
        [V2.Clause.column "id" "IN" "?" "OR" V2.Kind.whereKind] ∧
      (V2.OrWhere "id" "IN" [ArgV.vInt 1] (V2.init .selectStmt)).args = [ArgV.vInt 1]) :=
  ⟨c9_in_expansion.1 "id" "IN" [ArgV.vInt 1] (V2.init .selectStmt) (by decide)
      (Or.inr rfl),
    c9_in_expansion.2.2.1 "id" "IN" (ArgV.vInt 1) (V2.init .selectStmt)⟩

/-- C10 — `Columns` mutates the column slice captured in its closure when
applied to an INSERT statement: the first application parenthesizes the
captured names in place and renders `(email, username)`; a second
application of the same option value — to a second INSERT statement or to
the same one — doubles the parentheses, so it renders
`((email, username))`, not the same text as the first application.  Because
the appended clause aliases the captured slice, the same-statement second
application also rewrites the items read through the clause appended first:
both stored clauses then resolve to the doubled names. -/
theorem c10_columns_impure :
    V2.buildInitial (V2.resolveQuery c10step1.1 c10step1.2) =
        "INSERT INTO users (email, username)" ∧
      c10step1.1 = [["(email", "username)"]] ∧
      c10step2other.1 = [["((email", "username))"]] ∧
      V2.buildInitial (V2.resolveQuery c10step2other.1 c10step2other.2) =
        "INSERT INTO users ((email, username))" ∧
      (V2.resolveQuery c10step2same.1 c10step2same.2).clauses =
        [V2.Clause.table .intoKind "users",
          V2.Clause.list .columnsKind ["((email", "username))"],
          V2.Clause.list .columnsKind ["((email", "username))"]] ∧
      V2.buildInitial (V2.resolveQuery c10step2same.1 c10step2same.2) =
        "INSERT INTO users ((email, username)) ((email, username))" ∧
      V2.buildInitial (V2.resolveQuery c10step2other.1 c10step2other.2) ≠
        V2.buildInitial (V2.resolveQuery c10step1.1 c10step1.2) := by
  decide
